import Mathlib

/-!
Verification of the CareMind drug-record builder (`drugs_builder.py`).

The Python source is shallowly embedded: strings are `List Char`, Python
`None`/empty-string truthiness is modelled explicitly, the regular
expressions of `SECTION_PATTERNS` and `NEXT_SECTION_RE` are embedded as
deterministic matchers for exactly those pattern shapes, the network and
filesystem boundaries of the source clients are environment parameters,
and the `tenacity` retry decorator is embedded as a bounded retry loop
over a stream of attempt outcomes.
-/

namespace CareMind

/-! ## Python string semantics helpers -/

/-- Whitespace as matched by Python's `\s` (practical subset: ASCII
whitespace plus NBSP, NEL and the ideographic space). -/
def isPySpace (c : Char) : Bool :=
  c = ' ' || c = '\t' || c = '\n' || c = '\r' || c = '\x0b' || c = '\x0c' ||
  c = '\x85' || c = '\xa0' || c = '　'

/-- Worker for `re.sub(r"\s+", " ", ·)`: the flag records whether the
previous input character belonged to a whitespace run already replaced. -/
def collapseAux : Bool → List Char → List Char
  | _, [] => []
  | prevSp, c :: cs =>
    if isPySpace c then
      if prevSp then collapseAux true cs else ' ' :: collapseAux true cs
    else c :: collapseAux false cs

/-- `re.sub(r"\s+", " ", text)`: every whitespace run becomes one space. -/
def collapseWs (l : List Char) : List Char := collapseAux false l

/-- Removes trailing whitespace (the right half of Python `str.strip()`). -/
def dropTrailingWs : List Char → List Char
  | [] => []
  | c :: cs =>
    match dropTrailingWs cs with
    | [] => if isPySpace c then [] else [c]
    | r => c :: r

/-- Python `str.strip()`. -/
def pyStrip (l : List Char) : List Char := dropTrailingWs (l.dropWhile isPySpace)

/-- Python truthiness of an optional string (`None` and `""` are falsy). -/
def truthy : Option (List Char) → Bool
  | none => false
  | some s => !s.isEmpty

/-- Python `a or b` on optional strings. -/
def pyOr (a b : Option (List Char)) : Option (List Char) :=
  if truthy a then a else b

/-! ## Section extractor (`SECTION_PATTERNS`, `NEXT_SECTION_RE`, `slice_section`) -/

/-- One atom of a heading pattern alternative: a literal character or an
embedded `\s*`. -/
inductive Atom where
  | lit (c : Char)
  | wsStar
deriving DecidableEq

/-- Matches one alternative at the head of the text, returning the remainder.
`\s*` is greedy; every atom that follows it in the source patterns is a
non-whitespace literal, so greedy matching needs no backtracking. -/
def matchAlt : List Atom → List Char → Option (List Char)
  | [], rest => some rest
  | .lit _ :: _, [] => none
  | .lit c :: as, x :: xs => if x = c then matchAlt as xs else none
  | .wsStar :: as, rest => matchAlt as (rest.dropWhile isPySpace)

/-- Tries the alternatives of a `(?:a|b|c)` group in order, as Python does. -/
def matchAlts : List (List Atom) → List Char → Option (List Char)
  | [], _ => none
  | a :: as, l =>
    match matchAlt a l with
    | some rest => some rest
    | none => matchAlts as l

/-- A character of the trailing `[：:\s]*` class of every section pattern. -/
def isColonWs (c : Char) : Bool := c = '：' || c = ':' || isPySpace c

/-- `re.search` for a section pattern: scans for the leftmost position where
some alternative matches, consumes the greedy `[：:\s]*` tail of the pattern,
and returns the text after the match (`text[m.end():]`). -/
def searchPat (alts : List (List Atom)) : List Char → Option (List Char)
  | [] =>
    match matchAlts alts [] with
    | some rest => some (rest.dropWhile isColonWs)
    | none => none
  | c :: cs =>
    match matchAlts alts (c :: cs) with
    | some rest => some (rest.dropWhile isColonWs)
    | none => searchPat alts cs

/-- After a `【`, does `[^】]{1,20}】` match here?  `n` is the number of
non-`】` characters still allowed. -/
def closeWithin : Nat → List Char → Bool
  | _, [] => false
  | 0, _ => false
  | n + 1, c :: cs =>
    if c = '】' then false
    else if cs.head? = some '】' then true
    else closeWithin n cs

/-- Does `NEXT_SECTION_RE = 【[^】]{1,20}】` match at this position? -/
def bracketAt : List Char → Bool
  | '【' :: rest => closeWithin 20 rest
  | _ => false

/-- `tail[:nxt.start()]` for the leftmost `NEXT_SECTION_RE` match, or `none`
when no later bracket heading exists. -/
def splitBeforeBracket : List Char → Option (List Char)
  | [] => none
  | c :: cs =>
    if bracketAt (c :: cs) then some []
    else (splitBeforeBracket cs).map (c :: ·)

/-- `slice_section(text, start_pat)` from the source: locate the pattern,
cut at the next `【...】` heading (or end of text), collapse whitespace,
strip, and return `None` for an empty body. -/
def slice_section (alts : List (List Atom)) (text : List Char) : Option (List Char) :=
  match searchPat alts text with
  | none => none
  | some tail =>
    let body :=
      match splitBeforeBracket tail with
      | some pre => pre
      | none => tail
    let body := pyStrip (collapseWs body)
    if body.isEmpty then none else some body

/-- Turns a literal string into a pattern alternative. -/
def litStr (s : String) : List Atom := s.data.map Atom.lit

/-- `SECTION_PATTERNS[0]`: `(?:【适应症】|适\s*应\s*症|适应证|适应症状)[：:\s]*`. -/
def patInd : List (List Atom) :=
  [litStr "【适应症】",
   [.lit '适', .wsStar, .lit '应', .wsStar, .lit '症'],
   litStr "适应证", litStr "适应症状"]

/-- `SECTION_PATTERNS[1]`: `(?:【禁忌】|禁\s*忌|禁忌症)[：:\s]*`. -/
def patContra : List (List Atom) :=
  [litStr "【禁忌】", [.lit '禁', .wsStar, .lit '忌'], litStr "禁忌症"]

/-- `SECTION_PATTERNS[2]`: `(?:【药物相互作用】|相互作用|药物-药物相互作用)[：:\s]*`. -/
def patInter : List (List Atom) :=
  [litStr "【药物相互作用】", litStr "相互作用", litStr "药物-药物相互作用"]

/-- `SECTION_PATTERNS[3]`: `(?:【孕妇及哺乳期用药】|孕妇及哺乳期用药|孕期用药|妊娠用药)[：:\s]*`. -/
def patPreg : List (List Atom) :=
  [litStr "【孕妇及哺乳期用药】", litStr "孕妇及哺乳期用药",
   litStr "孕期用药", litStr "妊娠用药"]

/-! ## Pregnancy-risk keyword classifier (`parse_cn_label_text`) -/

/-- Substring containment (`pat in l`), used for keyword regex searches. -/
def containsSub (pat : List Char) : List Char → Bool
  | [] => pat.isEmpty
  | c :: cs => pat.isPrefixOf (c :: cs) || containsSub pat cs

/-- `re.search(r"(禁用|绝对禁用|禁止使用)", t)`: containment of any
prohibition keyword. -/
def prohibited (l : List Char) : Bool :=
  containsSub "禁用".data l || containsSub "绝对禁用".data l ||
  containsSub "禁止使用".data l

/-- Does `收益` occur before the next newline?  (`.` in Python regexes does
not cross `\n`.) -/
def benefitBefore : List Char → Bool
  | [] => false
  | c :: cs =>
    if c = '\n' then false
    else if c = '收' && cs.head? = some '益' then true
    else benefitBefore cs

/-- `re.search(r"风险.*收益", t)`: some occurrence of `风险` followed by
`收益` with no newline in between. -/
def riskThenBenefit : List Char → Bool
  | [] => false
  | '风' :: '险' :: r => benefitBefore r || riskThenBenefit ('险' :: r)
  | _ :: cs => riskThenBenefit cs

/-- `re.search(r"(慎用|权衡利弊|风险.*收益)", t)`: any caution keyword. -/
def cautioned (l : List Char) : Bool :=
  containsSub "慎用".data l || containsSub "权衡利弊".data l || riskThenBenefit l

/-- The sentinel `未标注` (Unannotated). -/
def sentinel : List Char := "未标注".data

/-- The contraindicated pregnancy label `禁用（未标注分级）`. -/
def pregProhibited : List Char := "禁用（未标注分级）".data

/-- The caution pregnancy label `慎用（未标注分级）`. -/
def pregCaution : List Char := "慎用（未标注分级）".data

/-- The four optional field values produced by `parse_cn_label_text`
(the `out` dict of the source). -/
structure LabelFields where
  ind : Option (List Char)
  contra : Option (List Char)
  inter : Option (List Char)
  preg : Option (List Char)
deriving DecidableEq

/-- The three-way pregnancy classification applied to the extracted
pregnancy section (`None` when no section was found). -/
def classifyPreg : Option (List Char) → List Char
  | some t =>
    if prohibited t then pregProhibited
    else if cautioned t then pregCaution
    else sentinel
  | none => sentinel

/-- `parse_cn_label_text(full_text)`: collapse whitespace, slice the three
content sections (left unset when absent), and classify the pregnancy
section — which is always set, to the sentinel in the worst case. -/
def parse_cn_label_text (full : List Char) : LabelFields :=
  let text := collapseWs full
  { ind := slice_section patInd text
    contra := slice_section patContra text
    inter := slice_section patInter text
    preg := some (classifyPreg (slice_section patPreg text)) }

/-! ## Data model and resolution environment -/

/-- `DrugRecord` from the source: optional fields mutated during
resolution, sentinel-filled at the end. -/
structure DrugRecord where
  name : List Char
  indications : Option (List Char) := none
  contraindications : Option (List Char) := none
  interactions : Option (List Char) := none
  pregnancy_category : Option (List Char) := none
  source : Option (List Char) := none
deriving DecidableEq

/-- The field mapping `DrugBankClient.pick_fields` extracts from a detail
response (values may be absent or even empty strings). -/
structure Picked where
  ind : Option (List Char)
  contra : Option (List Char)
  inter : Option (List Char)
  preg : Option (List Char)
deriving DecidableEq

/-- The external world of one `build_records` run: configuration flags and
the observable behaviour of the three source boundaries.  `fetchText` may
yield `none` (Python `None`) or an empty text; `dbQuery name = some p`
models a truthy `query_by_name` result already passed through
`pick_fields`; `scanOffline` models `scan_offline_label`. -/
structure Env where
  useNmpaOnline : Bool
  useDrugbank : Bool
  dbAvailable : Bool
  searchUrls : List Char → List (List Char)
  fetchText : List Char → Option (List Char)
  dbQuery : List Char → Option Picked
  scanOffline : List Char → Option (List Char)

/-- Provenance label of the online NMPA source. -/
def onlineLabel : List Char := "NMPA说明书（在线）".data

/-- Provenance label of the DrugBank source. -/
def dbLabel : List Char := "DrugBank".data

/-- Provenance label of the offline NMPA source. -/
def offlineLabel : List Char := "NMPA说明书（离线）".data

/-- Terminal provenance marker `未获取（请补充源）`. -/
def noSourceMarker : List Char := "未获取（请补充源）".data

/-- The `for u in urls: text = fetch(u); if text: break` loop followed by
`if text:` — the first truthy fetched text, if any. -/
def firstFetched (fetch : List Char → Option (List Char)) :
    List (List Char) → Option (List Char)
  | [] => none
  | u :: us =>
    match fetch u with
    | some t => if t.isEmpty then firstFetched fetch us else some t
    | none => firstFetched fetch us

/-- The text the online step works with: `none` when the online source is
disabled or no URL yields a truthy document. -/
def onlineText (env : Env) (name : List Char) : Option (List Char) :=
  if env.useNmpaOnline then firstFetched env.fetchText (env.searchUrls name)
  else none

/-- Python `all([...])` over the four fields. -/
def allFour (r : DrugRecord) : Bool :=
  truthy r.indications && truthy r.contraindications &&
  truthy r.interactions && truthy r.pregnancy_category

/-- Python `any([...])` over the four fields. -/
def anyFour (r : DrugRecord) : Bool :=
  truthy r.indications || truthy r.contraindications ||
  truthy r.interactions || truthy r.pregnancy_category

/-- The NMPA-online step of `build_records`: when a document was fetched,
overwrite all four fields with its parse and set the online provenance. -/
def onlineStep (env : Env) (name : List Char) (r : DrugRecord) : DrugRecord :=
  match onlineText env name with
  | some t =>
    let p := parse_cn_label_text t
    { r with indications := p.ind, contraindications := p.contra,
             interactions := p.inter, pregnancy_category := p.preg,
             source := some onlineLabel }
  | none => r

/-- The body of the DrugBank branch once a truthy detail is picked: fill
only the gaps and extend provenance
(`rec.source + " + DrugBank" if rec.source else "DrugBank"`). -/
def dbApply (p : Picked) (r : DrugRecord) : DrugRecord :=
  { r with
    indications := pyOr r.indications p.ind,
    contraindications := pyOr r.contraindications p.contra,
    interactions := pyOr r.interactions p.inter,
    pregnancy_category := pyOr r.pregnancy_category p.preg,
    source :=
      match r.source with
      | some s => if s.isEmpty then some dbLabel else some (s ++ " + DrugBank".data)
      | none => some dbLabel }

/-- The DrugBank step of `build_records`, guarded by
`use_drugbank and not all([...])`. -/
def dbStep (env : Env) (name : List Char) (r : DrugRecord) : DrugRecord :=
  if env.useDrugbank && env.dbAvailable && !allFour r then
    match env.dbQuery name with
    | some p => dbApply p r
    | none => r
  else r

/-- The body of the offline branch once a document is found: overwrite all
four fields with its parse and set the offline provenance. -/
def offlineApply (t : List Char) (r : DrugRecord) : DrugRecord :=
  let p := parse_cn_label_text t
  { r with indications := p.ind, contraindications := p.contra,
           interactions := p.inter, pregnancy_category := p.preg,
           source := some offlineLabel }

/-- The offline step of `build_records`, guarded by `not any([...])` and
by the truthiness of the scanned text. -/
def offlineStep (env : Env) (name : List Char) (r : DrugRecord) : DrugRecord :=
  if !anyFour r then
    match env.scanOffline name with
    | some t => if t.isEmpty then r else offlineApply t r
    | none => r
  else r

/-- The sentinel-filling epilogue of `build_records`. -/
def finalize (r : DrugRecord) : DrugRecord :=
  { r with
    indications := if truthy r.indications then r.indications else some sentinel,
    contraindications :=
      if truthy r.contraindications then r.contraindications else some sentinel,
    interactions := if truthy r.interactions then r.interactions else some sentinel,
    pregnancy_category :=
      if truthy r.pregnancy_category then r.pregnancy_category else some sentinel,
    source := if truthy r.source then r.source else some noSourceMarker }

/-- `DrugRecord(name=name)`. -/
def initRec (name : List Char) : DrugRecord := { name := name }

/-- The record state after the three source steps, before sentinel filling. -/
def preResolve (env : Env) (name : List Char) : DrugRecord :=
  offlineStep env name (dbStep env name (onlineStep env name (initRec name)))

/-- The loop body of `build_records` for one drug name. -/
def buildOne (env : Env) (name : List Char) : DrugRecord :=
  finalize (preResolve env name)

/-- `build_records(names, ...)`. -/
def build_records (env : Env) (names : List (List Char)) : List DrugRecord :=
  names.map (buildOne env)

/-! ## Retry/backoff executor and source clients (`NMPAClient`, `DrugBankClient`) -/

/-- How an attempt fails: `transient` is a `requests.RequestException`
(retried by the decorator), `fatal` any other exception (never retried). -/
inductive RetryErr where
  | transient
  | fatal
deriving DecidableEq

/-- The tenacity loop `stop_after_attempt`/`retry_if_exception_type`
(`reraise=True`): `step i` is the outcome of attempt number `i`; the result
is paired with the number of the last attempt made. -/
def retryRun {α : Type} (step : Nat → Except RetryErr α) (i : Nat) :
    Nat → Except RetryErr α × Nat
  | 0 => (.error .transient, i)
  | 1 => (step i, i)
  | n + 2 =>
    match step i with
    | .ok a => (.ok a, i)
    | .error .fatal => (.error .fatal, i)
    | .error .transient => retryRun step (i + 1) (n + 1)

/-- `@retry(stop=stop_after_attempt(3), ...)`: at most 3 total attempts. -/
def retry3 {α : Type} (step : Nat → Except RetryErr α) : Except RetryErr α × Nat :=
  retryRun step 1 3

/-- `wait_exponential(multiplier=1, min=1, max=8)`: the delay slept after
failed attempt number `n` (tenacity computes
`clamp(min, max, multiplier * 2 ^ (attempt_number - 1))`). -/
def waitExp (n : Nat) : Nat := max 1 (min (2 ^ (n - 1)) 8)

/-- One NMPA HTTP attempt as seen by `NMPAClient._get`: either the
connection fails, or a response arrives with some status; `extracted`
stands for what the caller's post-processing of a successful response
would produce (`none` when that post-processing raises). -/
inductive NmpaEvent where
  | netFail
  | response (status : Nat) (extracted : Option (List Char))

/-- `NMPAClient._get`: a connection error is a `RequestException`
(transient); `if resp.status_code != 200: raise RequestException` — any
other status, 2xx or not, is raised as transient too. -/
def nmpaGetOnce : NmpaEvent → Except RetryErr (Option (List Char))
  | .netFail => .error .transient
  | .response s ex => if s ≠ 200 then .error .transient else .ok ex

/-- Modelled from the spec: the spec's transient-failure classification for
an HTTP response, "non-2xx HTTP status" / "any response whose status is
not a success".  Used only to compare the spec's words with the code's
`status != 200` test. -/
def specTransientStatus (s : Nat) : Bool := !(200 ≤ s && s < 300)

/-- A minimal JSON value universe for the DrugBank client. -/
inductive JVal where
  | null
  | boolean (b : Bool)
  | num (n : Int)
  | str (s : List Char)
  | arr (xs : List JVal)
  | obj (fs : List (List Char × JVal))

/-- Python truthiness of a JSON value (`if not j: ...`). -/
def jTruthy : JVal → Bool
  | .null => false
  | .boolean b => b
  | .num n => n ≠ 0
  | .str s => !s.isEmpty
  | .arr xs => !xs.isEmpty
  | .obj fs => !fs.isEmpty

/-- `dict.get(k)`: the stored value, or Python `None` when absent. -/
def jLookup (fs : List (List Char × JVal)) (k : List Char) : Option JVal :=
  (fs.find? (fun f => f.1 = k)).map (fun f => f.2)

/-- `x.get(k)` on an arbitrary value: raises `AttributeError` (the
`.error` case) unless `x` is a dict. -/
def jGetAttr : JVal → List Char → Except Unit (Option JVal)
  | .obj fs, k => .ok (jLookup fs k)
  | _, _ => .error ()

/-- Python truthiness of `dict.get`'s result. -/
def jTruthyOpt : Option JVal → Bool
  | some v => jTruthy v
  | none => false

/-- One DrugBank HTTP attempt: the body is `none` when `resp.json()`
would raise on a malformed payload. -/
inductive DbEvent where
  | netFail
  | response (status : Nat) (body : Option JVal)

/-- `DrugBankClient._get`: connection errors and non-200 statuses raise
`RequestException` (transient); a malformed JSON body makes the
`resp.json()` inside the retried function raise
`requests.exceptions.JSONDecodeError`, which subclasses
`RequestException` (requests ≥ 2.27) and is therefore also retried by
`retry_if_exception_type((requests.RequestException,))` — so every
failure arising inside `_get` is transient.  The `fatal` classification
(an exception outside the retried types, propagated immediately by
tenacity) is never produced by these clients. -/
def dbGetOnce : DbEvent → Except RetryErr JVal
  | .netFail => .error .transient
  | .response s b =>
    if s ≠ 200 then .error .transient
    else match b with
      | some j => .ok j
      | none => .error .transient

/-- `NMPAClient.search_label_urls`: tries the placeholder search page
under `try/except` (returning `[]` on any failure) and then returns `[]`
unconditionally, since no stable search API exists. -/
def search_label_urls (evs : Nat → NmpaEvent) : List (List Char) :=
  match retry3 (fun i => nmpaGetOnce (evs i)) with
  | (.error _, _) => []
  | (.ok _, _) => []

/-- `NMPAClient.fetch_label_text`: everything runs under `try/except`, so
retry exhaustion and any extraction failure produce `None`. -/
def fetch_label_text (evs : Nat → NmpaEvent) : Option (List Char) :=
  match retry3 (fun i => nmpaGetOnce (evs i)) with
  | (.error _, _) => none
  | (.ok ex, _) => ex

/-- `DrugBankClient.query_by_name`: search request, truthiness check,
first element of a list result, `id`/`drugbank_id` lookup, optional detail
request — all under `try/except Exception: return None`.  `evs1` drives
the attempts of the search `_get`, `evs2` those of the detail `_get`. -/
def query_by_name (evs1 evs2 : Nat → DbEvent) : Option JVal :=
  match retry3 (fun i => dbGetOnce (evs1 i)) with
  | (.error _, _) => none
  | (.ok j, _) =>
    if !jTruthy j then none
    else
      let first := match j with
        | .arr (x :: _) => x
        | _ => j
      match jGetAttr first "id".data with
      | .error _ => none
      | .ok idOpt =>
        match jGetAttr first "drugbank_id".data with
        | .error _ => none
        | .ok dbIdOpt =>
          let drugId := if jTruthyOpt idOpt then idOpt else dbIdOpt
          if !jTruthyOpt drugId then some first
          else
            match retry3 (fun i => dbGetOnce (evs2 i)) with
            | (.error _, _) => none
            | (.ok detail, _) => some detail

/-! ## Text normalizer (`ensure_utf8`) -/

/-- Is a byte a UTF-8 continuation byte (`0x80..0xBF`)? -/
def isCont (b : UInt8) : Bool := 0x80 ≤ b && b ≤ 0xBF

/-- Codepoint assembled from a 2-byte UTF-8 sequence. -/
def cp2 (b1 b2 : UInt8) : Nat := (b1.toNat - 0xC0) * 64 + (b2.toNat - 0x80)

/-- Codepoint assembled from a 3-byte UTF-8 sequence. -/
def cp3 (b1 b2 b3 : UInt8) : Nat :=
  (b1.toNat - 0xE0) * 4096 + (b2.toNat - 0x80) * 64 + (b3.toNat - 0x80)

/-- Codepoint assembled from a 4-byte UTF-8 sequence. -/
def cp4 (b1 b2 b3 b4 : UInt8) : Nat :=
  (b1.toNat - 0xF0) * 262144 + (b2.toNat - 0x80) * 4096 +
  (b3.toNat - 0x80) * 64 + (b4.toNat - 0x80)

/-- Valid range of the second byte after a given 3- or 4-byte lead
(excludes overlong encodings, surrogates and codepoints above U+10FFFF,
as CPython's strict UTF-8 decoder does). -/
def contLow (b1 : UInt8) : UInt8 :=
  if b1 = 0xE0 then 0xA0 else if b1 = 0xF0 then 0x90 else 0x80

/-- Upper bound of the second byte after a given lead. -/
def contHigh (b1 : UInt8) : UInt8 :=
  if b1 = 0xED then 0x9F else if b1 = 0xF4 then 0x8F else 0xBF

/-- Is `b2` an acceptable second byte after lead `b1`? -/
def okSecond (b1 b2 : UInt8) : Bool := contLow b1 ≤ b2 && b2 ≤ contHigh b1

/-- `bytes.decode("utf-8", errors="ignore")`: decodes UTF-8, skipping
invalid portions (on a bad continuation byte, decoding resumes at that
byte; a truncated final sequence is dropped). -/
def utf8DecodeIgnore : List UInt8 → List Char
  | [] => []
  | b1 :: bs =>
    if b1 ≤ 0x7F then Char.ofNat b1.toNat :: utf8DecodeIgnore bs
    else if 0xC2 ≤ b1 && b1 ≤ 0xDF then
      match bs with
      | b2 :: bs2 =>
        if isCont b2 then Char.ofNat (cp2 b1 b2) :: utf8DecodeIgnore bs2
        else utf8DecodeIgnore (b2 :: bs2)
      | [] => []
    else if 0xE0 ≤ b1 && b1 ≤ 0xEF then
      match bs with
      | b2 :: bs2 =>
        if okSecond b1 b2 then
          match bs2 with
          | b3 :: bs3 =>
            if isCont b3 then Char.ofNat (cp3 b1 b2 b3) :: utf8DecodeIgnore bs3
            else utf8DecodeIgnore (b3 :: bs3)
          | [] => []
        else utf8DecodeIgnore (b2 :: bs2)
      | [] => []
    else if 0xF0 ≤ b1 && b1 ≤ 0xF4 then
      match bs with
      | b2 :: bs2 =>
        if okSecond b1 b2 then
          match bs2 with
          | b3 :: bs3 =>
            if isCont b3 then
              match bs3 with
              | b4 :: bs4 =>
                if isCont b4 then Char.ofNat (cp4 b1 b2 b3 b4) :: utf8DecodeIgnore bs4
                else utf8DecodeIgnore (b4 :: bs4)
              | [] => []
            else utf8DecodeIgnore (b3 :: bs3)
          | [] => []
        else utf8DecodeIgnore (b2 :: bs2)
      | [] => []
    else utf8DecodeIgnore bs

/-- `ensure_utf8(text_bytes)`.  `detect` models `chardet.detect` composed
with codec lookup: `none` when no encoding is detected (the code then
falls back to `"utf-8"`), otherwise a lenient decoder for the detected
encoding, which returns `none` if decoding raises (the `except` branch
then falls back to lenient UTF-8). -/
def ensure_utf8 (detect : List UInt8 → Option (List UInt8 → Option (List Char)))
    (bs : List UInt8) : List Char :=
  match detect bs with
  | none => utf8DecodeIgnore bs
  | some dec =>
    match dec bs with
    | some s => s
    | none => utf8DecodeIgnore bs

/-- The detector outcome on inputs where `chardet` reports no encoding
(e.g. a single stray continuation byte such as `0x9D`). -/
def detectNone : List UInt8 → Option (List UInt8 → Option (List Char)) :=
  fun _ => none

/-! ## Refined resolver model with the unvalidated DrugBank detail

`query_by_name` returns `resp.json()` unvalidated, and `build_records`
applies `pick_fields` to it outside any exception handler; likewise
`scan_offline_label` runs `os.listdir` outside any `try/except`.  The
coarse `Env` model above treats the DrugBank boundary at the granularity
of already-picked fields; the model below exposes the raw JSON detail and
the fallible directory scan, so the exception path of the batch loop —
an `AttributeError` from `pick_fields` aborting `build_records` — is
expressible.  Record fields here hold arbitrary Python values (`JVal`),
as they do in the source. -/

/-- Python `a or b` over optional JSON values (`none` is Python `None`). -/
def pyOrJv (a b : Option JVal) : Option JVal := if jTruthyOpt a then a else b

mutual

/-- Python `repr` of a JSON-decoded value, as `str()` falls back to for
containers (escape sequences inside quoted string literals are not
rendered). -/
def jRepr : JVal → List Char
  | .null => "None".data
  | .boolean true => "True".data
  | .boolean false => "False".data
  | .num n => (toString n).data
  | .str s => '\'' :: (s ++ ['\''])
  | .arr xs => '[' :: (jReprList xs ++ [']'])
  | .obj fs => '\x7b' :: (jReprFields fs ++ ['\x7d'])

/-- Comma-separated `repr`s of the elements of a list. -/
def jReprList : List JVal → List Char
  | [] => []
  | [x] => jRepr x
  | x :: y :: rest => jRepr x ++ ", ".data ++ jReprList (y :: rest)

/-- Comma-separated `repr(key): repr(value)` pairs of a dict (keys are
strings, rendered quoted). -/
def jReprFields : List (List Char × JVal) → List Char
  | [] => []
  | [kv] => '\'' :: (kv.1 ++ ['\'']) ++ ": ".data ++ jRepr kv.2
  | kv :: kv2 :: rest =>
    '\'' :: (kv.1 ++ ['\'']) ++ ": ".data ++ jRepr kv.2 ++ ", ".data ++
      jReprFields (kv2 :: rest)

end

/-- Python `str()` of a value, as the f-string `f"{partner}: {desc}"`
uses: strings render as themselves, everything else as its `repr`. -/
def jToStr : JVal → List Char
  | .str s => s
  | v => jRepr v

/-- `str.join`. -/
def joinWith (sep : List Char) : List (List Char) → List Char
  | [] => []
  | [x] => x
  | x :: y :: rest => x ++ sep ++ joinWith sep (y :: rest)

/-- `get_nested(d, key)` of `pick_fields`, for the single-key calls the
source makes: a `None` input returns the default, a dict is looked up
(a stored `null` collapses to the default, per
`return cur if cur is not None else default`), and any other value
raises `AttributeError` at `cur.get(k)` — the `.error` case. -/
def get_nested1 (d : JVal) (k : List Char) : Except Unit (Option JVal) :=
  match d with
  | .null => .ok none
  | .obj fs =>
    .ok (match jLookup fs k with
         | some .null => none
         | some v => some v
         | none => none)
  | _ => .error ()

/-- The `for it in intr_list[:30]` loop of `pick_fields`: each entry must
be a dict (otherwise `it.get` raises `AttributeError`); entries with a
truthy `description` or `text` contribute `f"{partner}: {desc}"`. -/
def buildSnippets : List JVal → Except Unit (List (List Char))
  | [] => .ok []
  | it :: rest =>
    match it with
    | .obj fs => do
      let desc := pyOrJv (jLookup fs "description".data) (jLookup fs "text".data)
      let partner := pyOrJv (pyOrJv (jLookup fs "name".data) (jLookup fs "drug".data))
        (some (.str []))
      let tail ← buildSnippets rest
      if jTruthyOpt desc then
        pure ((jToStr (partner.getD (.str [])) ++ ": ".data ++
               jToStr (desc.getD (.str []))) :: tail)
      else pure tail
    | _ => .error ()

/-- The value of `pick_fields`: raw JSON values for three fields and an
assembled string (or `None`) for interactions. -/
structure JPicked where
  ind : Option JVal
  contra : Option JVal
  inter : Option (List Char)
  preg : Option JVal

/-- `DrugBankClient.pick_fields(detail)`: called by `build_records`
outside any exception handler, so the `AttributeError` raised by
`get_nested` on a truthy non-dict detail, or by `it.get` on a non-dict
interaction entry, escapes — the `.error` case. -/
def pick_fields (detail : JVal) : Except Unit JPicked := do
  let i1 ← get_nested1 detail "indication".data
  let i2 ← get_nested1 detail "indications".data
  let contra ← get_nested1 detail "contraindications".data
  let intr ← get_nested1 detail "drug_interactions".data
  let inter ← (match intr with
    | some (.arr xs) =>
      if xs.isEmpty then pure none
      else do
        let snippets ← buildSnippets (xs.take 30)
        pure (if snippets.isEmpty then none
              else some (joinWith "；".data snippets))
    | _ => pure (none : Option (List Char)))
  let p1 ← get_nested1 detail "pregnancy_category".data
  let p2 ← get_nested1 detail "fda_pregnancy_category".data
  pure { ind := pyOrJv i1 i2, contra := contra, inter := inter,
         preg := pyOrJv p1 p2 }

/-- `DrugRecord` in the refined model: content fields hold arbitrary
Python values — strings from label parses, raw JSON values from DrugBank
picks — with `none` as Python `None`. -/
structure DrugRecordJ where
  name : List Char
  indications : Option JVal := none
  contraindications : Option JVal := none
  interactions : Option JVal := none
  pregnancy_category : Option JVal := none
  source : Option (List Char) := none

/-- The external world of a `build_records` run in the refined model:
`dbDetail` is the raw value `query_by_name` returns (unvalidated JSON or
`None`), and `scanOffline` may raise, since `os.listdir` runs outside any
`try/except`. -/
structure EnvJ where
  useNmpaOnline : Bool
  useDrugbank : Bool
  dbAvailable : Bool
  searchUrls : List Char → List (List Char)
  fetchText : List Char → Option (List Char)
  dbDetail : List Char → Option JVal
  scanOffline : List Char → Except Unit (Option (List Char))

/-- The online document of the refined model, as in `onlineText`. -/
def onlineTextJ (env : EnvJ) (name : List Char) : Option (List Char) :=
  if env.useNmpaOnline then firstFetched env.fetchText (env.searchUrls name)
  else none

/-- The NMPA-online step over refined records. -/
def onlineStepJ (env : EnvJ) (name : List Char) (r : DrugRecordJ) : DrugRecordJ :=
  match onlineTextJ env name with
  | some t =>
    let p := parse_cn_label_text t
    { r with indications := p.ind.map JVal.str,
             contraindications := p.contra.map JVal.str,
             interactions := p.inter.map JVal.str,
             pregnancy_category := p.preg.map JVal.str,
             source := some onlineLabel }
  | none => r

/-- Python `all([...])` over the four refined fields. -/
def allFourJ (r : DrugRecordJ) : Bool :=
  jTruthyOpt r.indications && jTruthyOpt r.contraindications &&
  jTruthyOpt r.interactions && jTruthyOpt r.pregnancy_category

/-- Python `any([...])` over the four refined fields. -/
def anyFourJ (r : DrugRecordJ) : Bool :=
  jTruthyOpt r.indications || jTruthyOpt r.contraindications ||
  jTruthyOpt r.interactions || jTruthyOpt r.pregnancy_category

/-- The DrugBank step of `build_records` over the raw detail: on a truthy
detail, `pick_fields` runs unguarded and its `AttributeError`
propagates. -/
def dbStepJ (env : EnvJ) (name : List Char) (r : DrugRecordJ) :
    Except Unit DrugRecordJ :=
  if env.useDrugbank && env.dbAvailable && !allFourJ r then
    match env.dbDetail name with
    | some detail =>
      if jTruthy detail then do
        let p ← pick_fields detail
        pure { r with
          indications := pyOrJv r.indications p.ind,
          contraindications := pyOrJv r.contraindications p.contra,
          interactions := pyOrJv r.interactions (p.inter.map JVal.str),
          pregnancy_category := pyOrJv r.pregnancy_category p.preg,
          source :=
            match r.source with
            | some s => if s.isEmpty then some dbLabel
                        else some (s ++ " + DrugBank".data)
            | none => some dbLabel }
      else pure r
    | none => pure r
  else pure r

/-- The offline step of `build_records` with the fallible directory
scan. -/
def offlineStepJ (env : EnvJ) (name : List Char) (r : DrugRecordJ) :
    Except Unit DrugRecordJ :=
  if !anyFourJ r then
    match env.scanOffline name with
    | .error e => .error e
    | .ok none => pure r
    | .ok (some t) =>
      if t.isEmpty then pure r
      else
        let p := parse_cn_label_text t
        pure { r with indications := p.ind.map JVal.str,
                      contraindications := p.contra.map JVal.str,
                      interactions := p.inter.map JVal.str,
                      pregnancy_category := p.preg.map JVal.str,
                      source := some offlineLabel }
  else pure r

/-- The sentinel-filling epilogue over refined records. -/
def finalizeJ (r : DrugRecordJ) : DrugRecordJ :=
  { r with
    indications := if jTruthyOpt r.indications then r.indications
                   else some (.str sentinel),
    contraindications := if jTruthyOpt r.contraindications then r.contraindications
                         else some (.str sentinel),
    interactions := if jTruthyOpt r.interactions then r.interactions
                    else some (.str sentinel),
    pregnancy_category := if jTruthyOpt r.pregnancy_category then r.pregnancy_category
                          else some (.str sentinel),
    source := if truthy r.source then r.source else some noSourceMarker }

/-- `DrugRecord(name=name)` in the refined model. -/
def initRecJ (name : List Char) : DrugRecordJ := { name := name }

/-- The three source steps for one name; the exception, if any, escapes. -/
def preResolveJ (env : EnvJ) (name : List Char) : Except Unit DrugRecordJ := do
  let r2 ← dbStepJ env name (onlineStepJ env name (initRecJ name))
  offlineStepJ env name r2

/-- One iteration of the `build_records` loop. -/
def buildOneJ (env : EnvJ) (name : List Char) : Except Unit DrugRecordJ := do
  let r ← preResolveJ env name
  pure (finalizeJ r)

/-- `build_records(names, ...)` with the exception path: the first record
whose resolution raises aborts the whole loop and nothing is returned. -/
def build_recordsJ (env : EnvJ) : List (List Char) → Except Unit (List DrugRecordJ)
  | [] => .ok []
  | n :: ns => do
    let r ← buildOneJ env n
    let rs ← build_recordsJ env ns
    pure (r :: rs)

/-- A run whose DrugBank detail is a truthy JSON string for every name —
`pick_fields` raises on it. -/
def envCrash : EnvJ :=
  { useNmpaOnline := true, useDrugbank := true, dbAvailable := true,
    searchUrls := fun _ => [], fetchText := fun _ => none,
    dbDetail := fun _ => some (.str "oops".data),
    scanOffline := fun _ => .ok none }

/-- A run whose DrugBank detail is shape-invalid for the first name only;
every other name would resolve cleanly. -/
def envCrashFirst : EnvJ :=
  { useNmpaOnline := true, useDrugbank := true, dbAvailable := true,
    searchUrls := fun _ => [], fetchText := fun _ => none,
    dbDetail := fun nm => if nm = "药A".data then some (.str "oops".data) else none,
    scanOffline := fun _ => .ok none }

/-- A benign run: DrugBank returns no detail and the offline scan finds
nothing. -/
def envJok : EnvJ :=
  { useNmpaOnline := true, useDrugbank := true, dbAvailable := true,
    searchUrls := fun _ => [], fetchText := fun _ => none,
    dbDetail := fun _ => none,
    scanOffline := fun _ => .ok none }

/-- The record a benign run emits for a name with no source data. -/
def recSentinelJ (name : List Char) : DrugRecordJ :=
  { name := name,
    indications := some (.str sentinel),
    contraindications := some (.str sentinel),
    interactions := some (.str sentinel),
    pregnancy_category := some (.str sentinel),
    source := some noSourceMarker }

/-! ## Helper lemmas about whitespace collapsing and stripping -/

lemma isPySpace_space : isPySpace ' ' = true := by decide

lemma collapseAux_mem_space (l : List Char) :
    ∀ b c, c ∈ collapseAux b l → isPySpace c = true → c = ' ' := by
  induction l with
  | nil => intro b c h; simp [collapseAux] at h
  | cons x xs ih =>
    intro b c h hs
    by_cases hx : isPySpace x = true
    · cases b with
      | true => simp only [collapseAux, hx, if_true] at h; exact ih true c h hs
      | false =>
        simp only [collapseAux, hx, if_true] at h
        rcases List.mem_cons.mp h with h1 | h2
        · exact h1
        · exact ih true c h2 hs
    · simp only [collapseAux, hx, if_false, Bool.false_eq_true] at h
      rcases List.mem_cons.mp h with h1 | h2
      · subst h1; exact absurd hs (by simp [hx])
      · exact ih false c h2 hs

lemma collapseAux_true_head (l : List Char) :
    ∀ c, (collapseAux true l).head? = some c → isPySpace c = false := by
  induction l with
  | nil => intro c h; simp [collapseAux] at h
  | cons x xs ih =>
    intro c h
    by_cases hx : isPySpace x = true
    · simp only [collapseAux, hx, if_true] at h; exact ih c h
    · simp only [collapseAux, hx, if_false, Bool.false_eq_true, List.head?_cons,
        Option.some.injEq] at h
      subst h; simp [hx]

lemma collapseAux_no_two_spaces (l : List Char) :
    ∀ b, ¬ ([' ', ' '] <:+: collapseAux b l) := by
  induction l with
  | nil => intro b h; simp [collapseAux] at h
  | cons x xs ih =>
    intro b h
    by_cases hx : isPySpace x = true
    · cases b with
      | true => simp only [collapseAux, hx, if_true] at h; exact ih true h
      | false =>
        simp only [collapseAux, hx, if_true] at h
        rcases List.infix_cons_iff.mp h with hp | hi
        · have hp2 := (List.cons_prefix_cons.mp hp).2
          rcases hcs : collapseAux true xs with - | ⟨y, ys⟩
          · rw [hcs] at hp2; simp at hp2
          · rw [hcs] at hp2
            have hy := (List.cons_prefix_cons.mp hp2).1
            have hhead := collapseAux_true_head xs y (by rw [hcs, List.head?_cons])
            rw [← hy] at hhead
            exact absurd hhead (by simp [isPySpace_space])
        · exact ih true hi
    · simp only [collapseAux, hx, if_false, Bool.false_eq_true] at h
      rcases List.infix_cons_iff.mp h with hp | hi
      · rcases List.cons_prefix_cons.mp hp with ⟨hxeq, -⟩
        exact hx (hxeq ▸ isPySpace_space)
      · exact ih false hi

lemma dropTrailingWs_prefix_self (l : List Char) : dropTrailingWs l <+: l := by
  induction l with
  | nil => simp [dropTrailingWs]
  | cons x xs ih =>
    simp only [dropTrailingWs]
    rcases h : dropTrailingWs xs with - | ⟨y, ys⟩
    · by_cases hx : isPySpace x = true
      · simp [hx]
      · simp [hx, List.cons_prefix_cons]
    · exact List.cons_prefix_cons.mpr ⟨rfl, h ▸ ih⟩

lemma dropTrailingWs_getLast (l : List Char) :
    ∀ c, (dropTrailingWs l).getLast? = some c → isPySpace c = false := by
  induction l with
  | nil => intro c h; simp [dropTrailingWs] at h
  | cons x xs ih =>
    intro c h
    simp only [dropTrailingWs] at h
    rcases hd : dropTrailingWs xs with - | ⟨y, ys⟩
    · rw [hd] at h
      by_cases hx : isPySpace x = true
      · simp [hx] at h
      · simp only [hx, Bool.false_eq_true, if_false] at h
        simp only [List.getLast?_singleton, Option.some.injEq] at h
        subst h; simp [hx]
    · rw [hd] at h
      rw [List.getLast?_cons_cons] at h
      exact ih c (hd ▸ h)

lemma dropTrailingWs_head (l : List Char) :
    dropTrailingWs l = [] ∨ (dropTrailingWs l).head? = l.head? := by
  induction l with
  | nil => exact Or.inl rfl
  | cons x xs _ =>
    simp only [dropTrailingWs]
    rcases hd : dropTrailingWs xs with - | ⟨y, ys⟩
    · by_cases hx : isPySpace x = true
      · exact Or.inl (by simp [hx])
      · exact Or.inr (by simp [hx])
    · exact Or.inr rfl

lemma pyStrip_head (l : List Char) :
    ∀ c, (pyStrip l).head? = some c → isPySpace c = false := by
  intro c h
  unfold pyStrip at h
  rcases dropTrailingWs_head (l.dropWhile isPySpace) with he | hh
  · rw [he] at h; simp at h
  · rw [hh] at h
    have := List.head?_dropWhile_not isPySpace l
    rw [h] at this
    exact this

lemma pyStrip_infix_self (l : List Char) : pyStrip l <:+: l :=
  ((dropTrailingWs_prefix_self _).isInfix).trans (List.dropWhile_suffix isPySpace).isInfix

/-- The result of `pyStrip (collapseWs l)` is fully normalized: every
whitespace character in it is a plain space, it has no two adjacent
spaces, and it neither starts nor ends with a space. -/
lemma strip_collapse_normalized (l b : List Char) (h : b = pyStrip (collapseWs l)) :
    (∀ c ∈ b, isPySpace c = true → c = ' ') ∧
    ¬ ([' ', ' '] <:+: b) ∧
    b.head? ≠ some ' ' ∧
    (∀ c, b.getLast? = some c → isPySpace c = false) := by
  subst h
  refine ⟨?_, ?_, ?_, ?_⟩
  · intro c hc hs
    exact collapseAux_mem_space l false c ((pyStrip_infix_self _).subset hc) hs
  · intro hin
    exact collapseAux_no_two_spaces l false (hin.trans (pyStrip_infix_self _))
  · intro h
    exact absurd (pyStrip_head _ ' ' h) (by simp [isPySpace_space])
  · intro c h
    exact dropTrailingWs_getLast _ c h

/-! ## Claims about the section extractor and the pregnancy classifier -/

/-- C8: `slice_section` finds the first match of the heading pattern and
returns `none` when there is none; otherwise it returns the substring
from the end of the match up to the next `【...】` heading marker (1–20
characters inside the brackets), or to the end of the document when no
marker follows, whitespace-collapsed and trimmed, with a body that is
empty after collapsing yielding `none`.  Concretely, extracting `适应症`
from `前言【适应症】A  B C【禁忌】D` yields `A B C`. -/
theorem C8_theorem :
    slice_section patInd "前言【适应症】A  B C【禁忌】D".data = some "A B C".data ∧
    slice_section patInd "【适应症】A B C".data = some "A B C".data ∧
    slice_section patInd "没有相关章节".data = none ∧
    (∀ alts text, searchPat alts text = none → slice_section alts text = none) ∧
    (∀ alts text b, slice_section alts text = some b →
      b ≠ [] ∧
      (∀ c ∈ b, isPySpace c = true → c = ' ') ∧
      ¬ ([' ', ' '] <:+: b) ∧
      b.head? ≠ some ' ' ∧
      (∀ c, b.getLast? = some c → isPySpace c = false)) := by
  refine ⟨by decide, by decide, by decide, ?_, ?_⟩
  · intro alts text h
    simp [slice_section, h]
  · intro alts text b h
    unfold slice_section at h
    rcases hs : searchPat alts text with - | tail
    · rw [hs] at h; simp at h
    · rw [hs] at h
      simp only at h
      rcases he : (pyStrip (collapseWs (match splitBeforeBracket tail with
          | some pre => pre | none => tail))).isEmpty with - | -
      · rw [he] at h
        simp only [Bool.false_eq_true, if_false, Option.some.injEq] at h
        obtain ⟨h1, h2, h3, h4⟩ :=
          strip_collapse_normalized
            (match splitBeforeBracket tail with | some pre => pre | none => tail) _ rfl
        subst h
        exact ⟨by simpa [List.isEmpty_iff] using he, h1, h2, h3, h4⟩
      · rw [he] at h; simp at h

/-- C8 witness: the general clause of `C8_theorem` instantiated at a
concrete extraction. -/
theorem C8_witness :
    "Y Z".data ≠ [] ∧ ¬ ([' ', ' '] <:+: "Y Z".data) :=
  ⟨(C8_theorem.2.2.2.2 patContra "x【禁忌】Y  Z".data "Y Z".data (by decide)).1,
   (C8_theorem.2.2.2.2 patContra "x【禁忌】Y  Z".data "Y Z".data (by decide)).2.2.1⟩

/-- C9: the pregnancy-risk classification over the extracted pregnancy
section is three-way and order-sensitive: any prohibition keyword gives
`禁用（未标注分级）` (even when a caution keyword is present too), else
any caution keyword gives `慎用（未标注分级）`, else — including when no
pregnancy section was found — the result is the sentinel `未标注`. -/
theorem C9_theorem :
    (∀ full t, slice_section patPreg (collapseWs full) = some t →
        prohibited t = true →
        (parse_cn_label_text full).preg = some pregProhibited) ∧
    (∀ full t, slice_section patPreg (collapseWs full) = some t →
        prohibited t = false → cautioned t = true →
        (parse_cn_label_text full).preg = some pregCaution) ∧
    (∀ full t, slice_section patPreg (collapseWs full) = some t →
        prohibited t = false → cautioned t = false →
        (parse_cn_label_text full).preg = some sentinel) ∧
    (∀ full, slice_section patPreg (collapseWs full) = none →
        (parse_cn_label_text full).preg = some sentinel) ∧
    (prohibited "孕妇禁用，哺乳期慎用".data = true ∧
     cautioned "孕妇禁用，哺乳期慎用".data = true ∧
     (parse_cn_label_text "【孕妇及哺乳期用药】孕妇禁用，哺乳期慎用".data).preg =
       some pregProhibited) := by
  refine ⟨?_, ?_, ?_, ?_, by decide, by decide, by decide⟩
  · intro full t hs hp
    simp [parse_cn_label_text, hs, classifyPreg, hp]
  · intro full t hs hp hc
    simp [parse_cn_label_text, hs, classifyPreg, hp, hc]
  · intro full t hs hp hc
    simp [parse_cn_label_text, hs, classifyPreg, hp, hc]
  · intro full hs
    simp [parse_cn_label_text, hs, classifyPreg]

/-- C9 witness: `C9_theorem` applied to a document whose pregnancy section
contains both a prohibition and a caution keyword. -/
theorem C9_witness :
    (parse_cn_label_text "【孕妇及哺乳期用药】禁用；也需慎用".data).preg =
      some pregProhibited :=
  C9_theorem.1 "【孕妇及哺乳期用药】禁用；也需慎用".data "禁用；也需慎用".data
    (by decide) (by decide)

/-! ## Helper lemmas about the fallback resolver -/

lemma pyOr_truthy {a b : Option (List Char)} (h : truthy a = true) : pyOr a b = a := by
  simp [pyOr, h]

lemma pyOr_none {b : Option (List Char)} : pyOr none b = b := by
  simp [pyOr, truthy]

lemma classifyPreg_ne_nil (o : Option (List Char)) : classifyPreg o ≠ [] := by
  cases o with
  | none => decide
  | some t =>
    simp only [classifyPreg]
    split_ifs <;> decide

lemma parse_preg_eq (full : List Char) :
    (parse_cn_label_text full).preg =
      some (classifyPreg (slice_section patPreg (collapseWs full))) := rfl

lemma parse_preg_truthy (full : List Char) :
    truthy (parse_cn_label_text full).preg = true := by
  rw [parse_preg_eq]
  simp [truthy, List.isEmpty_iff, classifyPreg_ne_nil]

lemma dbStep_keep_ind {env : Env} {name : List Char} {r : DrugRecord}
    (h : truthy r.indications = true) :
    (dbStep env name r).indications = r.indications := by
  unfold dbStep
  split_ifs
  · cases env.dbQuery name <;> simp [dbApply, pyOr_truthy h]
  · rfl

lemma dbStep_keep_contra {env : Env} {name : List Char} {r : DrugRecord}
    (h : truthy r.contraindications = true) :
    (dbStep env name r).contraindications = r.contraindications := by
  unfold dbStep
  split_ifs
  · cases env.dbQuery name <;> simp [dbApply, pyOr_truthy h]
  · rfl

lemma dbStep_keep_inter {env : Env} {name : List Char} {r : DrugRecord}
    (h : truthy r.interactions = true) :
    (dbStep env name r).interactions = r.interactions := by
  unfold dbStep
  split_ifs
  · cases env.dbQuery name <;> simp [dbApply, pyOr_truthy h]
  · rfl

lemma dbStep_keep_preg {env : Env} {name : List Char} {r : DrugRecord}
    (h : truthy r.pregnancy_category = true) :
    (dbStep env name r).pregnancy_category = r.pregnancy_category := by
  unfold dbStep
  split_ifs
  · cases env.dbQuery name <;> simp [dbApply, pyOr_truthy h]
  · rfl

lemma anyFour_of_preg {r : DrugRecord} (h : truthy r.pregnancy_category = true) :
    anyFour r = true := by
  simp [anyFour, h]

lemma offlineStep_skip {env : Env} {name : List Char} {r : DrugRecord}
    (h : anyFour r = true) : offlineStep env name r = r := by
  simp [offlineStep, h]

lemma onlineStep_name (env : Env) (name : List Char) (r : DrugRecord) :
    (onlineStep env name r).name = r.name := by
  unfold onlineStep
  cases onlineText env name <;> rfl

lemma dbStep_name (env : Env) (name : List Char) (r : DrugRecord) :
    (dbStep env name r).name = r.name := by
  unfold dbStep
  split_ifs
  · cases env.dbQuery name <;> rfl
  · rfl

lemma offlineStep_name (env : Env) (name : List Char) (r : DrugRecord) :
    (offlineStep env name r).name = r.name := by
  unfold offlineStep
  split_ifs
  · cases env.scanOffline name with
    | none => rfl
    | some t => by_cases ht : t.isEmpty = true <;> simp [ht, offlineApply]
  · rfl

lemma buildOne_name (env : Env) (name : List Char) :
    (buildOne env name).name = name := by
  show (finalize (preResolve env name)).name = name
  have : (finalize (preResolve env name)).name = (preResolve env name).name := rfl
  rw [this]
  unfold preResolve
  rw [offlineStep_name, dbStep_name, onlineStep_name]
  rfl

lemma if_truthy_nonempty (o : Option (List Char)) (d : List Char) (hd : d ≠ []) :
    ∃ s, (if truthy o then o else some d) = some s ∧ s ≠ [] := by
  rcases o with - | s
  · exact ⟨d, by simp [truthy], hd⟩
  · by_cases hs : s.isEmpty = true
    · exact ⟨d, by simp [truthy, hs], hd⟩
    · exact ⟨s, by simp [truthy, hs], by simpa [List.isEmpty_iff] using hs⟩

lemma onlineStep_of_some {env : Env} {name t : List Char}
    (h : onlineText env name = some t) :
    onlineStep env name (initRec name) =
      { name := name,
        indications := (parse_cn_label_text t).ind,
        contraindications := (parse_cn_label_text t).contra,
        interactions := (parse_cn_label_text t).inter,
        pregnancy_category := (parse_cn_label_text t).preg,
        source := some onlineLabel } := by
  unfold onlineStep
  rw [h]
  rfl

lemma onlineLabel_not_empty : onlineLabel.isEmpty = false := by decide

/-! ## Concrete environments used as counterexamples and witnesses -/

/-- A run in which the online search yields nothing, DrugBank returns a
truthy detail from which no field can be picked, and no offline document
exists. -/
def env0 : Env :=
  { useNmpaOnline := true, useDrugbank := true, dbAvailable := true,
    searchUrls := fun _ => [], fetchText := fun _ => none,
    dbQuery := fun _ => some ⟨none, none, none, none⟩,
    scanOffline := fun _ => none }

/-- A run in which the online search yields a full document and DrugBank
would also supply content for every field. -/
def env1 : Env :=
  { useNmpaOnline := true, useDrugbank := true, dbAvailable := true,
    searchUrls := fun _ => ["u".data],
    fetchText := fun _ => some "【适应症】A B C【禁忌】D E".data,
    dbQuery := fun _ =>
      some ⟨some "Z".data, some "W".data, some "V".data, some "B级".data⟩,
    scanOffline := fun _ => none }

/-- A run in which the online search yields nothing, DrugBank supplies
only the indications, and an offline document with a contraindications
section exists. -/
def env2 : Env :=
  { useNmpaOnline := true, useDrugbank := true, dbAvailable := true,
    searchUrls := fun _ => [], fetchText := fun _ => none,
    dbQuery := fun _ => some ⟨some "X".data, none, none, none⟩,
    scanOffline := fun _ => some "【禁忌】Y".data }

/-- A run in which the online document has a pregnancy section matching
neither keyword set while DrugBank supplies a real pregnancy category. -/
def env3 : Env :=
  { useNmpaOnline := true, useDrugbank := true, dbAvailable := true,
    searchUrls := fun _ => ["u".data],
    fetchText := fun _ => some "【孕妇及哺乳期用药】尚不明确".data,
    dbQuery := fun _ => some ⟨none, none, none, some "B级".data⟩,
    scanOffline := fun _ => none }

/-! ## Claims about the fallback resolver -/

/-- C2: once the online step has set a field to truthy content, no later
source step overwrites it — whatever the StructuredAPI source would have
returned, the final value equals the online parse's content exactly. -/
theorem C2_theorem : ∀ (env : Env) (name t : List Char),
    onlineText env name = some t →
    (∀ v, (parse_cn_label_text t).ind = some v → v ≠ [] →
       (buildOne env name).indications = some v) ∧
    (∀ v, (parse_cn_label_text t).contra = some v → v ≠ [] →
       (buildOne env name).contraindications = some v) ∧
    (∀ v, (parse_cn_label_text t).inter = some v → v ≠ [] →
       (buildOne env name).interactions = some v) ∧
    (∀ v, (parse_cn_label_text t).preg = some v → v ≠ [] →
       (buildOne env name).pregnancy_category = some v) := by
  intro env name t h
  have hA := onlineStep_of_some h
  set A := onlineStep env name (initRec name) with hAdef
  have hApreg : A.pregnancy_category = (parse_cn_label_text t).preg := by rw [hA]
  have hpregA : truthy A.pregnancy_category = true := by
    rw [hApreg]; exact parse_preg_truthy t
  have hBpreg : (dbStep env name A).pregnancy_category = A.pregnancy_category :=
    dbStep_keep_preg hpregA
  have hBpregT : truthy (dbStep env name A).pregnancy_category = true := by
    rw [hBpreg]; exact hpregA
  have hpre : preResolve env name = dbStep env name A := by
    unfold preResolve
    rw [← hAdef]
    exact offlineStep_skip (anyFour_of_preg hBpregT)
  have hbuild : buildOne env name = finalize (dbStep env name A) := by
    unfold buildOne; rw [hpre]
  refine ⟨?_, ?_, ?_, ?_⟩ <;> intro v hv hne
  · have hAv : A.indications = some v := by rw [hA]; exact hv
    have hAt : truthy A.indications = true := by
      rw [hAv]; simp [truthy, List.isEmpty_iff, hne]
    have hB : (dbStep env name A).indications = A.indications := dbStep_keep_ind hAt
    rw [hbuild]
    simp only [finalize]
    rw [hB, hAv]
    simp [truthy, List.isEmpty_iff, hne]
  · have hAv : A.contraindications = some v := by rw [hA]; exact hv
    have hAt : truthy A.contraindications = true := by
      rw [hAv]; simp [truthy, List.isEmpty_iff, hne]
    have hB : (dbStep env name A).contraindications = A.contraindications :=
      dbStep_keep_contra hAt
    rw [hbuild]
    simp only [finalize]
    rw [hB, hAv]
    simp [truthy, List.isEmpty_iff, hne]
  · have hAv : A.interactions = some v := by rw [hA]; exact hv
    have hAt : truthy A.interactions = true := by
      rw [hAv]; simp [truthy, List.isEmpty_iff, hne]
    have hB : (dbStep env name A).interactions = A.interactions :=
      dbStep_keep_inter hAt
    rw [hbuild]
    simp only [finalize]
    rw [hB, hAv]
    simp [truthy, List.isEmpty_iff, hne]
  · have hAv : A.pregnancy_category = some v := by rw [hA]; exact hv
    rw [hbuild]
    simp only [finalize]
    rw [hBpreg, hAv]
    simp [truthy, List.isEmpty_iff, hne]

/-- C2 witness: `C2_theorem` on `env1`, where the online document supplies
`A B C` for indications and DrugBank would have supplied `Z`. -/
theorem C2_witness : (buildOne env1 "药A".data).indications = some "A B C".data :=
  (C2_theorem env1 "药A".data "【适应症】A B C【禁忌】D E".data (by decide)).1
    "A B C".data (by decide) (by decide)

/-- C7 counterexample: in `env3` the online document's pregnancy section
matches neither keyword set, DrugBank supplies the real category `B级`,
and yet the final `pregnancy_category` is the sentinel `未标注`, not the
StructuredAPI value — the claimed late defaulting does not hold. -/
theorem C7_counterexample :
    env3.dbQuery "药A".data = some ⟨none, none, none, some "B级".data⟩ ∧
    (parse_cn_label_text "【孕妇及哺乳期用药】尚不明确".data).preg = some sentinel ∧
    (buildOne env3 "药A".data).pregnancy_category = some sentinel ∧
    sentinel ≠ "B级".data := by
  refine ⟨rfl, by decide, by decide, by decide⟩

/-- C7 (amended): the pregnancy field is not defaulted lazily — whenever
the online step resolves a document, `pregnancy_category` is assigned the
classifier's output immediately (the sentinel `未标注` when no keyword
matches), and this value, sentinel included, blocks every later source;
the other three fields do keep their gaps open for later sources. -/
theorem C7_theorem : ∀ (env : Env) (name t : List Char),
    onlineText env name = some t →
    ((buildOne env name).pregnancy_category = (parse_cn_label_text t).preg) ∧
    (∀ p v, (env.useDrugbank && env.dbAvailable) = true →
       env.dbQuery name = some p →
       (parse_cn_label_text t).ind = none → p.ind = some v → v ≠ [] →
       (buildOne env name).indications = some v) := by
  intro env name t h
  have hA := onlineStep_of_some h
  set A := onlineStep env name (initRec name) with hAdef
  have hApreg : A.pregnancy_category = (parse_cn_label_text t).preg := by rw [hA]
  have hpregA : truthy A.pregnancy_category = true := by
    rw [hApreg]; exact parse_preg_truthy t
  have hBpreg : (dbStep env name A).pregnancy_category = A.pregnancy_category :=
    dbStep_keep_preg hpregA
  have hBpregT : truthy (dbStep env name A).pregnancy_category = true := by
    rw [hBpreg]; exact hpregA
  have hpre : preResolve env name = dbStep env name A := by
    unfold preResolve
    rw [← hAdef]
    exact offlineStep_skip (anyFour_of_preg hBpregT)
  have hbuild : buildOne env name = finalize (dbStep env name A) := by
    unfold buildOne; rw [hpre]
  constructor
  · rw [hbuild]
    simp only [finalize]
    rw [hBpreg, hApreg]
    simp [parse_preg_truthy t]
  · intro p v hflags hq hind hpv hne
    have hAind : A.indications = none := by rw [hA]; exact hind
    have hAindT : truthy A.indications = false := by rw [hAind]; rfl
    have hall : allFour A = false := by simp [allFour, hAindT]
    have hguard : (env.useDrugbank && env.dbAvailable && !allFour A) = true := by
      rw [hall, hflags]; rfl
    have hdb : dbStep env name A = dbApply p A := by
      simp [dbStep, hguard, hq]
    have hBind : (dbStep env name A).indications = some v := by
      rw [hdb]
      simp [dbApply, hAind, pyOr_none, hpv]
    have hBT : truthy (dbStep env name A).indications = true := by
      rw [hBind]; simp [truthy, List.isEmpty_iff, hne]
    rw [hbuild]
    simp only [finalize]
    rw [hBind]
    simp [truthy, List.isEmpty_iff, hne]

/-- C7 witness: `C7_theorem` on `env3` — the final pregnancy category is
exactly the online classifier's output. -/
theorem C7_witness :
    (buildOne env3 "药B".data).pregnancy_category =
      (parse_cn_label_text "【孕妇及哺乳期用药】尚不明确".data).preg :=
  (C7_theorem env3 "药B".data "【孕妇及哺乳期用药】尚不明确".data (by decide)).1

/-- C3 counterexample: in `env2` the record still has empty fields after
the Online and StructuredAPI steps (only indications was filled), an
offline document with a contraindications section exists, and yet the
final contraindications is the sentinel, not the offline content — the
offline step is guarded by `not any(...)`, not by `not all(...)`. -/
theorem C3_counterexample :
    truthy (dbStep env2 "药A".data
      (onlineStep env2 "药A".data (initRec "药A".data))).contraindications = false ∧
    env2.scanOffline "药A".data = some "【禁忌】Y".data ∧
    (parse_cn_label_text "【禁忌】Y".data).contra = some "Y".data ∧
    (buildOne env2 "药A".data).indications = some "X".data ∧
    (buildOne env2 "药A".data).contraindications = some sentinel ∧
    sentinel ≠ "Y".data := by
  refine ⟨by decide, rfl, by decide, by decide, by decide, by decide⟩

/-- C3 (amended): the StructuredAPI step is skipped iff the record already
has all four fields non-empty, and fills only the currently-empty fields;
the Offline step, however, is invoked iff the record has no non-empty
field at all — it is skipped whenever at least one field is filled, even
if others are still empty. -/
theorem C3_theorem : ∀ (env : Env) (name : List Char) (r : DrugRecord),
    (allFour r = true → dbStep env name r = r) ∧
    ((env.useDrugbank && env.dbAvailable) = true → allFour r = false →
       dbStep env name r =
         (match env.dbQuery name with | some p => dbApply p r | none => r)) ∧
    (∀ p, truthy r.indications = true → (dbApply p r).indications = r.indications) ∧
    (∀ p, truthy r.indications = false → (dbApply p r).indications = p.ind) ∧
    (∀ p, truthy r.contraindications = true →
       (dbApply p r).contraindications = r.contraindications) ∧
    (∀ p, truthy r.contraindications = false →
       (dbApply p r).contraindications = p.contra) ∧
    (∀ p, truthy r.interactions = true → (dbApply p r).interactions = r.interactions) ∧
    (∀ p, truthy r.interactions = false → (dbApply p r).interactions = p.inter) ∧
    (∀ p, truthy r.pregnancy_category = true →
       (dbApply p r).pregnancy_category = r.pregnancy_category) ∧
    (∀ p, truthy r.pregnancy_category = false →
       (dbApply p r).pregnancy_category = p.preg) ∧
    (anyFour r = true → offlineStep env name r = r) ∧
    (anyFour r = false → offlineStep env name r =
       (match env.scanOffline name with
        | some t => if t.isEmpty = true then r else offlineApply t r
        | none => r)) := by
  intro env name r
  refine ⟨?_, ?_, ?_, ?_, ?_, ?_, ?_, ?_, ?_, ?_, ?_, ?_⟩
  · intro h; simp [dbStep, h]
  · intro hf ha; simp [dbStep, hf, ha]
  · intro p h; simp [dbApply, pyOr_truthy h]
  · intro p h; simp [dbApply, pyOr, h]
  · intro p h; simp [dbApply, pyOr_truthy h]
  · intro p h; simp [dbApply, pyOr, h]
  · intro p h; simp [dbApply, pyOr_truthy h]
  · intro p h; simp [dbApply, pyOr, h]
  · intro p h; simp [dbApply, pyOr_truthy h]
  · intro p h; simp [dbApply, pyOr, h]
  · exact fun h => offlineStep_skip h
  · intro h; simp [offlineStep, h]

/-- C3 witness: `C3_theorem` on `env2` — a fully-resolved record makes the
StructuredAPI step a no-op, and a partially-filled record makes the
Offline step a no-op. -/
theorem C3_witness :
    dbStep env2 "药A".data
      { name := "药A".data, indications := some "a".data,
        contraindications := some "b".data, interactions := some "c".data,
        pregnancy_category := some "d".data, source := some "s".data } =
      { name := "药A".data, indications := some "a".data,
        contraindications := some "b".data, interactions := some "c".data,
        pregnancy_category := some "d".data, source := some "s".data } ∧
    offlineStep env2 "药A".data
      { name := "药A".data, indications := some "X".data,
        contraindications := none, interactions := none,
        pregnancy_category := none, source := some "DrugBank".data } =
      { name := "药A".data, indications := some "X".data,
        contraindications := none, interactions := none,
        pregnancy_category := none, source := some "DrugBank".data } :=
  ⟨(C3_theorem env2 "药A".data _).1 (by decide),
   (C3_theorem env2 "药A".data _).2.2.2.2.2.2.2.2.2.2.1 (by decide)⟩

/-- C4 counterexample: in `env0` DrugBank's query returns a truthy result
from which no field can be picked — no field is contributed (all four end
as the sentinel) — and yet the provenance is `DrugBank`, not the terminal
marker: a source's label is appended whenever its query returns a truthy
result, not only when it contributed a field. -/
theorem C4_counterexample :
    env0.dbQuery "药A".data = some ⟨none, none, none, none⟩ ∧
    (buildOne env0 "药A".data).indications = some sentinel ∧
    (buildOne env0 "药A".data).contraindications = some sentinel ∧
    (buildOne env0 "药A".data).interactions = some sentinel ∧
    (buildOne env0 "药A".data).pregnancy_category = some sentinel ∧
    (buildOne env0 "药A".data).source = some dbLabel ∧
    dbLabel ≠ noSourceMarker := by
  refine ⟨rfl, by decide, by decide, by decide, by decide, by decide, by decide⟩

/-- C4 (amended): a source's label enters the provenance iff its query
returned a usable result at a step that ran, labels being appended in
query order — except that the offline step, which only runs on records
with no filled field, overwrites the provenance with its own label instead
of appending; a source that returned a result records its label even when
it filled no field, and the terminal marker appears iff no step recorded
any provenance. -/
theorem C4_theorem : ∀ (env : Env) (name : List Char),
    (∀ t, onlineText env name = some t →
       (onlineStep env name (initRec name)).source = some onlineLabel) ∧
    (onlineText env name = none →
       (onlineStep env name (initRec name)).source = none) ∧
    (∀ r p, (env.useDrugbank && env.dbAvailable && !allFour r) = true →
       env.dbQuery name = some p → r.source = some onlineLabel →
       (dbStep env name r).source = some (onlineLabel ++ " + DrugBank".data)) ∧
    (∀ r p, (env.useDrugbank && env.dbAvailable && !allFour r) = true →
       env.dbQuery name = some p → r.source = none →
       (dbStep env name r).source = some dbLabel) ∧
    (∀ r, (env.useDrugbank && env.dbAvailable && !allFour r) = false →
       (dbStep env name r).source = r.source) ∧
    (∀ r, env.dbQuery name = none → (dbStep env name r).source = r.source) ∧
    (∀ r t, anyFour r = false → env.scanOffline name = some t → t.isEmpty = false →
       (offlineStep env name r).source = some offlineLabel) ∧
    (∀ r, anyFour r = true → (offlineStep env name r).source = r.source) ∧
    (∀ r, truthy r.source = true → (finalize r).source = r.source) ∧
    (∀ r, truthy r.source = false → (finalize r).source = some noSourceMarker) := by
  intro env name
  refine ⟨?_, ?_, ?_, ?_, ?_, ?_, ?_, ?_, ?_, ?_⟩
  · intro t h
    rw [onlineStep_of_some h]
  · intro h
    unfold onlineStep; rw [h]
    rfl
  · intro r p hg hq hs
    simp [dbStep, hg, hq, dbApply, hs, onlineLabel_not_empty]
  · intro r p hg hq hs
    simp [dbStep, hg, hq, dbApply, hs]
  · intro r hg
    simp [dbStep, hg]
  · intro r hq
    unfold dbStep
    split_ifs
    · rw [hq]
    · rfl
  · intro r t ha hs he
    simp [offlineStep, ha, hs, he, offlineApply]
  · intro r ha
    rw [offlineStep_skip ha]
  · intro r h; simp [finalize, h]
  · intro r h; simp [finalize, h]

/-- C4 witness: `C4_theorem` on `env0` — the DrugBank label is recorded
from a `none` provenance, and an empty provenance is finalized to the
terminal marker. -/
theorem C4_witness :
    (dbStep env0 "药C".data (initRec "药C".data)).source = some dbLabel ∧
    (finalize (initRec "药C".data)).source = some noSourceMarker :=
  ⟨(C4_theorem env0 "药C".data).2.2.2.1 (initRec "药C".data)
      ⟨none, none, none, none⟩ (by decide) rfl rfl,
   (C4_theorem env0 "药C".data).2.2.2.2.2.2.2.2.2 (initRec "药C".data) rfl⟩

/-! ## Helper lemmas about the refined resolver -/

lemma okE_inj {α : Type} {a b : α} (h : (Except.ok a : Except Unit α) = .ok b) :
    a = b := by
  injection h

lemma onlineStepJ_name (env : EnvJ) (name : List Char) (r : DrugRecordJ) :
    (onlineStepJ env name r).name = r.name := by
  unfold onlineStepJ
  cases onlineTextJ env name <;> rfl

lemma dbStepJ_name {env : EnvJ} {name : List Char} {r r' : DrugRecordJ}
    (h : dbStepJ env name r = .ok r') : r'.name = r.name := by
  unfold dbStepJ at h
  split_ifs at h
  · split at h
    · rename_i detail heq
      split_ifs at h
      · cases hp : pick_fields detail with
        | error e => rw [hp] at h; exact Except.noConfusion h
        | ok p => rw [hp] at h; rw [← okE_inj h]
      · rw [← okE_inj h]
    · rw [← okE_inj h]
  · rw [← okE_inj h]

lemma offlineStepJ_name {env : EnvJ} {name : List Char} {r r' : DrugRecordJ}
    (h : offlineStepJ env name r = .ok r') : r'.name = r.name := by
  unfold offlineStepJ at h
  split_ifs at h
  · split at h
    · exact Except.noConfusion h
    · rw [← okE_inj h]
    · split_ifs at h
      · rw [← okE_inj h]
      · rw [← okE_inj h]
  · rw [← okE_inj h]

lemma preResolveJ_name {env : EnvJ} {nm : List Char} {r3 : DrugRecordJ}
    (h : preResolveJ env nm = .ok r3) : r3.name = nm := by
  unfold preResolveJ at h
  cases hd : dbStepJ env nm (onlineStepJ env nm (initRecJ nm)) with
  | error e => rw [hd] at h; exact Except.noConfusion h
  | ok r2 =>
    rw [hd] at h
    have h2 : offlineStepJ env nm r2 = .ok r3 := h
    rw [offlineStepJ_name h2, dbStepJ_name hd, onlineStepJ_name]
    rfl

lemma buildOneJ_ok_elim {env : EnvJ} {nm : List Char} {r : DrugRecordJ}
    (h : buildOneJ env nm = .ok r) :
    ∃ r3, preResolveJ env nm = .ok r3 ∧ r = finalizeJ r3 := by
  unfold buildOneJ at h
  cases hp : preResolveJ env nm with
  | error e => rw [hp] at h; exact Except.noConfusion h
  | ok r3 =>
    rw [hp] at h
    exact ⟨r3, rfl, (okE_inj h).symm⟩

lemma buildOneJ_name {env : EnvJ} {nm : List Char} {r : DrugRecordJ}
    (h : buildOneJ env nm = .ok r) : r.name = nm := by
  obtain ⟨r3, hp, rfl⟩ := buildOneJ_ok_elim h
  have hf : (finalizeJ r3).name = r3.name := rfl
  rw [hf, preResolveJ_name hp]

lemma jTruthyOpt_finalize_field (o : Option JVal) :
    jTruthyOpt (if jTruthyOpt o then o else some (.str sentinel)) = true := by
  by_cases h : jTruthyOpt o = true
  · rw [if_pos h]; exact h
  · rw [if_neg h]; decide

lemma buildJ_ok_parts {env : EnvJ} :
    ∀ (names : List (List Char)) (rs : List DrugRecordJ),
      build_recordsJ env names = .ok rs →
      rs.map DrugRecordJ.name = names ∧ rs.length = names.length ∧
      ∀ r ∈ rs, ∃ nm, buildOneJ env nm = .ok r := by
  intro names
  induction names with
  | nil =>
    intro rs h
    have he : ([] : List DrugRecordJ) = rs := okE_inj h
    subst he
    simp
  | cons n ns ih =>
    intro rs h
    unfold build_recordsJ at h
    cases hb : buildOneJ env n with
    | error e => rw [hb] at h; exact Except.noConfusion h
    | ok r =>
      rw [hb] at h
      replace h : (build_recordsJ env ns >>= fun rs' => pure (r :: rs')) = .ok rs := h
      cases hbs : build_recordsJ env ns with
      | error e => rw [hbs] at h; exact Except.noConfusion h
      | ok rs' =>
        rw [hbs] at h
        have hrs : r :: rs' = rs := okE_inj h
        subst hrs
        obtain ⟨hmap, hlen, hmem⟩ := ih rs' hbs
        refine ⟨?_, ?_, ?_⟩
        · simp [hmap, buildOneJ_name hb]
        · simp [hlen]
        · intro x hx
          rcases List.mem_cons.mp hx with rfl | hx2
          · exact ⟨n, hb⟩
          · exact hmem x hx2

lemma buildJ_ok_iff (env : EnvJ) :
    ∀ (names : List (List Char)),
      (∃ rs, build_recordsJ env names = .ok rs) ↔
        (∀ nm ∈ names, ∃ r, buildOneJ env nm = .ok r) := by
  intro names
  induction names with
  | nil => simp [build_recordsJ]
  | cons n ns ih =>
    constructor
    · rintro ⟨rs, h⟩
      unfold build_recordsJ at h
      cases hb : buildOneJ env n with
      | error e => rw [hb] at h; exact Except.noConfusion h
      | ok r =>
        rw [hb] at h
        replace h : (build_recordsJ env ns >>= fun rs' => pure (r :: rs')) = .ok rs := h
        cases hbs : build_recordsJ env ns with
        | error e => rw [hbs] at h; exact Except.noConfusion h
        | ok rs' =>
          intro nm hnm
          rcases List.mem_cons.mp hnm with rfl | hm
          · exact ⟨r, hb⟩
          · exact (ih.mp ⟨rs', hbs⟩) nm hm
    · intro hall
      obtain ⟨r, hr⟩ := hall n (List.mem_cons_self n ns)
      obtain ⟨rs', hrs⟩ := ih.mpr (fun nm hm => hall nm (List.mem_cons_of_mem n hm))
      refine ⟨r :: rs', ?_⟩
      unfold build_recordsJ
      rw [hr, hrs]
      rfl

lemma dbStepJ_ok_of {env : EnvJ} {nm : List Char}
    (hdb : ∀ v, env.dbDetail nm = some v → jTruthy v = true →
       ∃ p, pick_fields v = .ok p) (r : DrugRecordJ) :
    ∃ r2, dbStepJ env nm r = .ok r2 := by
  cases hres : dbStepJ env nm r with
  | ok r2 => exact ⟨r2, rfl⟩
  | error e =>
    exfalso
    unfold dbStepJ at hres
    split_ifs at hres
    · split at hres
      · rename_i detail heq
        split_ifs at hres with ht
        · cases hp : pick_fields detail with
          | ok p => rw [hp] at hres; exact Except.noConfusion hres
          | error e2 =>
            obtain ⟨p, hp2⟩ := hdb detail heq ht
            rw [hp2] at hp
            exact Except.noConfusion hp
        · exact Except.noConfusion hres
      · exact Except.noConfusion hres
    · exact Except.noConfusion hres

lemma offlineStepJ_ok_of {env : EnvJ} {nm : List Char}
    (hscan : ∃ o, env.scanOffline nm = .ok o) (r : DrugRecordJ) :
    ∃ r3, offlineStepJ env nm r = .ok r3 := by
  cases hres : offlineStepJ env nm r with
  | ok r3 => exact ⟨r3, rfl⟩
  | error e =>
    exfalso
    obtain ⟨o, ho⟩ := hscan
    unfold offlineStepJ at hres
    split_ifs at hres
    · split at hres
      · rename_i e2 heq
        rw [ho] at heq
        exact Except.noConfusion heq
      · exact Except.noConfusion hres
      · split_ifs at hres <;> exact Except.noConfusion hres
    · exact Except.noConfusion hres

lemma buildOneJ_ok_of (env : EnvJ) (nm : List Char)
    (hdb : ∀ v, env.dbDetail nm = some v → jTruthy v = true →
       ∃ p, pick_fields v = .ok p)
    (hscan : ∃ o, env.scanOffline nm = .ok o) :
    ∃ r, buildOneJ env nm = .ok r := by
  obtain ⟨r2, h2⟩ := dbStepJ_ok_of hdb (onlineStepJ env nm (initRecJ nm))
  obtain ⟨r3, h3⟩ := offlineStepJ_ok_of hscan r2
  refine ⟨finalizeJ r3, ?_⟩
  unfold buildOneJ preResolveJ
  rw [h2]
  show (offlineStepJ env nm r2 >>= fun r => pure (finalizeJ r)) = .ok (finalizeJ r3)
  rw [h3]
  rfl

/-- C1 counterexample: for a non-empty batch of two names whose DrugBank
query returns a truthy JSON string, `pick_fields` — applied by
`build_records` outside any exception handler — raises `AttributeError`
and the whole batch aborts: no record is returned for either name,
refuting the unconditional one-record-per-name emission. -/
theorem C1_counterexample :
    jTruthy (JVal.str "oops".data) = true ∧
    (["药C".data, "药D".data] : List (List Char)) ≠ [] ∧
    build_recordsJ envCrash ["药C".data, "药D".data] = .error () := by
  exact ⟨rfl, by decide, rfl⟩

/-- C1 (amended): whenever `build_records` completes without an
exception, it returns exactly one record per input name, in order; each
of the four content fields of every returned record is then Python-truthy
— the sentinel string `未标注` exactly when the field was still empty at
finalization — and `source` is a non-empty string, equal to the terminal
marker `未获取（请补充源）` exactly when no source step recorded any
provenance.  Emission is not unconditional: a record whose resolution
raises (a truthy shape-invalid DrugBank detail reaching the unguarded
`pick_fields`, or an OS error in the offline scan) aborts the entire
batch. -/
theorem C1_theorem : ∀ (env : EnvJ) (names : List (List Char)) (rs : List DrugRecordJ),
    build_recordsJ env names = .ok rs →
    (rs.map DrugRecordJ.name = names ∧
     rs.length = names.length ∧
     ∀ r ∈ rs,
       jTruthyOpt r.indications = true ∧
       jTruthyOpt r.contraindications = true ∧
       jTruthyOpt r.interactions = true ∧
       jTruthyOpt r.pregnancy_category = true ∧
       (∃ s, r.source = some s ∧ s ≠ [])) ∧
    (∀ nm r3, preResolveJ env nm = .ok r3 →
       buildOneJ env nm = .ok (finalizeJ r3) ∧
       (jTruthyOpt r3.indications = false →
          (finalizeJ r3).indications = some (.str sentinel)) ∧
       (jTruthyOpt r3.contraindications = false →
          (finalizeJ r3).contraindications = some (.str sentinel)) ∧
       (jTruthyOpt r3.interactions = false →
          (finalizeJ r3).interactions = some (.str sentinel)) ∧
       (jTruthyOpt r3.pregnancy_category = false →
          (finalizeJ r3).pregnancy_category = some (.str sentinel)) ∧
       (truthy r3.source = false →
          (finalizeJ r3).source = some noSourceMarker) ∧
       (truthy r3.source = true → (finalizeJ r3).source = r3.source)) := by
  intro env names rs h
  obtain ⟨hmap, hlen, hmem⟩ := buildJ_ok_parts names rs h
  constructor
  · refine ⟨hmap, hlen, ?_⟩
    intro r hr
    obtain ⟨nm, hb⟩ := hmem r hr
    obtain ⟨r3, hp, rfl⟩ := buildOneJ_ok_elim hb
    exact ⟨jTruthyOpt_finalize_field _, jTruthyOpt_finalize_field _,
      jTruthyOpt_finalize_field _, jTruthyOpt_finalize_field _,
      if_truthy_nonempty r3.source noSourceMarker (by decide)⟩
  · intro nm r3 hp
    refine ⟨?_, ?_, ?_, ?_, ?_, ?_, ?_⟩
    · unfold buildOneJ
      rw [hp]
      rfl
    · intro hf; simp [finalizeJ, hf]
    · intro hf; simp [finalizeJ, hf]
    · intro hf; simp [finalizeJ, hf]
    · intro hf; simp [finalizeJ, hf]
    · intro hf; simp [finalizeJ, hf]
    · intro hf; simp [finalizeJ, hf]

/-- C1 witness: `C1_theorem` on the benign run `envJok` — the batch
succeeds, the single record maps back to the input name, and its empty
fields were finalized to truthy sentinels. -/
theorem C1_witness :
    [recSentinelJ "药F".data].map DrugRecordJ.name = ["药F".data] ∧
    jTruthyOpt (recSentinelJ "药F".data).indications = true := by
  have h := C1_theorem envJok ["药F".data] [recSentinelJ "药F".data] rfl
  exact ⟨h.1.1, (h.1.2.2 (recSentinelJ "药F".data) (by simp)).1⟩

/-! ## Claims about the retry executor and failure absorption -/

lemma retryRun_snd_bounds {α : Type} (step : Nat → Except RetryErr α) :
    ∀ (rem i : Nat), 1 ≤ rem →
      i ≤ (retryRun step i rem).2 ∧ (retryRun step i rem).2 ≤ i + rem - 1 := by
  intro rem
  induction rem with
  | zero => intro i h; exact absurd h (by omega)
  | succ n ih =>
    intro i _
    cases n with
    | zero => simp [retryRun]
    | succ m =>
      cases hs : step i with
      | ok a => simp [retryRun, hs]
      | error e =>
        cases e with
        | fatal => simp [retryRun, hs]
        | transient =>
          have hrec := ih (i + 1) (by omega)
          simp only [retryRun, hs]
          omega

lemma retry3_of_transients {α : Type} {step : Nat → Except RetryErr α}
    (h1 : step 1 = .error .transient) (h2 : step 2 = .error .transient) :
    retry3 step = (step 3, 3) := by
  simp [retry3, retryRun, h1, h2]

/-- C5 counterexample: a response with the 2xx success status 201 is
raised by `_get` as a transient failure and retried to exhaustion — the
code raises whenever the status is not exactly 200, not only on non-2xx
statuses as the claim states; and a malformed JSON body at status 200 is
also retried to exhaustion (`requests.JSONDecodeError` subclasses
`RequestException`), not propagated immediately as the claim states. -/
theorem C5_counterexample :
    nmpaGetOnce (.response 201 (some "x".data)) = .error .transient ∧
    retry3 (fun _ => nmpaGetOnce (.response 201 (some "x".data))) =
      (.error .transient, 3) ∧
    specTransientStatus 201 = false ∧
    dbGetOnce (.response 200 none) = .error .transient ∧
    retry3 (fun _ => dbGetOnce (.response 200 none)) = (.error .transient, 3) := by
  refine ⟨rfl, rfl, rfl, rfl, rfl⟩

/-- C5 (amended): each remote GET is attempted at most 3 total times; the
delay slept after the n-th failed attempt is `min (2^(n-1)) 8` seconds —
doubling from 1s, capped at 8s; an attempt fails and is retried exactly
when it raises a `RequestException` — a network/connection error, any
HTTP status other than exactly 200 (including 2xx statuses such as 201),
or, for the DrugBank client, a malformed JSON body (the `resp.json()`
inside the retried function raises `requests.JSONDecodeError`, a
`RequestException` subclass), so every failure arising inside `_get` is
retried; tenacity itself would propagate an exception outside the retried
types immediately (the `fatal` case of the executor), but these clients
never raise one. -/
theorem C5_theorem :
    (∀ (α : Type) (step : Nat → Except RetryErr α),
       1 ≤ (retry3 step).2 ∧ (retry3 step).2 ≤ 3) ∧
    (∀ (α : Type) (step : Nat → Except RetryErr α) (a : α),
       step 1 = .ok a → retry3 step = (.ok a, 1)) ∧
    (∀ (α : Type) (step : Nat → Except RetryErr α) (a : α),
       step 1 = .error .transient → step 2 = .error .transient →
       step 3 = .ok a → retry3 step = (.ok a, 3)) ∧
    (∀ (α : Type) (step : Nat → Except RetryErr α),
       step 1 = .error .fatal → retry3 step = (.error .fatal, 1)) ∧
    (∀ (α : Type) (step : Nat → Except RetryErr α),
       step 1 = .error .transient → step 2 = .error .transient →
       step 3 = .error .transient → retry3 step = (.error .transient, 3)) ∧
    (waitExp 1 = 1 ∧ waitExp 2 = 2 ∧
     (∀ n, 1 ≤ n → waitExp (n + 1) = min (2 * waitExp n) 8)) ∧
    (nmpaGetOnce .netFail = .error .transient) ∧
    (∀ s ex, s ≠ 200 → nmpaGetOnce (.response s ex) = .error .transient) ∧
    (∀ ex, nmpaGetOnce (.response 200 ex) = .ok ex) ∧
    (dbGetOnce .netFail = .error .transient) ∧
    (∀ s b, s ≠ 200 → dbGetOnce (.response s b) = .error .transient) ∧
    (∀ j, dbGetOnce (.response 200 (some j)) = .ok j) ∧
    (dbGetOnce (.response 200 none) = .error .transient) := by
  refine ⟨?_, ?_, ?_, ?_, ?_, ⟨rfl, rfl, ?_⟩, rfl, ?_, fun ex => rfl, rfl, ?_,
    fun j => rfl, rfl⟩
  · intro α step
    have h := retryRun_snd_bounds step 3 1 (by omega)
    unfold retry3
    exact ⟨h.1, by omega⟩
  · intro α step a h
    simp [retry3, retryRun, h]
  · intro α step a h1 h2 h3
    rw [retry3_of_transients h1 h2, h3]
  · intro α step h
    simp [retry3, retryRun, h]
  · intro α step h1 h2 h3
    rw [retry3_of_transients h1 h2, h3]
  · intro n hn
    obtain ⟨m, rfl⟩ : ∃ m, n = m + 1 := ⟨n - 1, by omega⟩
    have h2 : 2 ^ (m + 1) = 2 * 2 ^ m := by rw [pow_succ]; ring
    have h1 : 0 < 2 ^ m := pow_pos (by norm_num) _
    unfold waitExp
    simp only [Nat.add_sub_cancel]
    rw [h2]
    omega
  · intro s ex h
    simp [nmpaGetOnce, h]
  · intro s b h
    simp [dbGetOnce, h]

/-- C5 witness: `C5_theorem` on a call that fails transiently twice and
succeeds on the third attempt. -/
theorem C5_witness :
    retry3 (fun n => if n ≤ 2 then Except.error RetryErr.transient else .ok 7) =
      (.ok 7, 3) :=
  C5_theorem.2.2.1 Nat (fun n => if n ≤ 2 then .error .transient else .ok 7) 7
    rfl rfl rfl

/-- C6 counterexample: `query_by_name` returns the detail response's
JSON unvalidated, and `build_records` applies `pick_fields` to it outside
any `try/except`: a truthy non-dict detail (here a JSON string), and
equally a dict whose `drug_interactions` list holds a non-dict entry,
raise `AttributeError` out of `build_records` — the failure is not
absorbed into "no contribution", and it aborts resolution of every other
record in the batch, including one (`药B` under `envCrashFirst`) that
would have resolved cleanly on its own. -/
theorem C6_counterexample :
    jTruthy (JVal.str "oops".data) = true ∧
    pick_fields (JVal.str "oops".data) = .error () ∧
    pick_fields (JVal.obj [("drug_interactions".data, JVal.arr [JVal.num 1])]) =
      .error () ∧
    buildOneJ envCrash "药A".data = .error () ∧
    (∃ r, buildOneJ envCrashFirst "药B".data = .ok r) ∧
    build_recordsJ envCrashFirst ["药A".data, "药B".data] = .error () := by
  exact ⟨rfl, rfl, rfl, rfl, ⟨recSentinelJ "药B".data, rfl⟩, rfl⟩

/-- C6 (amended): failures inside the Source Clients' own methods are
absorbed — `search_label_urls` returns `[]` for every network behaviour,
`fetch_label_text` and `query_by_name` return `None` on retry exhaustion
(in particular when every attempt is a connection failure) or a falsy
payload — but `query_by_name` returns the detail JSON unvalidated and
`build_records` runs `pick_fields` on it outside any exception handler,
and the offline directory listing is equally unguarded: the batch
completes, with one record per name, exactly when every record's
resolution avoids such a raise — guaranteed whenever every truthy detail
is `pick_fields`-safe and the offline scan does not raise — while a
single raising record aborts the entire batch. -/
theorem C6_theorem :
    (∀ evs, search_label_urls evs = []) ∧
    (∀ evs e, (retry3 (fun i => nmpaGetOnce (evs i))).1 = .error e →
       fetch_label_text evs = none) ∧
    (∀ evs1 evs2 e, (retry3 (fun i => dbGetOnce (evs1 i))).1 = .error e →
       query_by_name evs1 evs2 = none) ∧
    (∀ evs1 evs2, (∀ n, evs1 n = DbEvent.netFail) →
       query_by_name evs1 evs2 = none) ∧
    (∀ evs1 evs2 j, (retry3 (fun i => dbGetOnce (evs1 i))).1 = .ok j →
       jTruthy j = false → query_by_name evs1 evs2 = none) ∧
    (∀ (env : EnvJ) (names : List (List Char)),
       (∃ rs, build_recordsJ env names = .ok rs ∧ rs.length = names.length) ↔
         (∀ nm ∈ names, ∃ r, buildOneJ env nm = .ok r)) ∧
    (∀ (env : EnvJ) (nm : List Char),
       (∀ v, env.dbDetail nm = some v → jTruthy v = true →
          ∃ p, pick_fields v = .ok p) →
       (∃ o, env.scanOffline nm = .ok o) →
       ∃ r, buildOneJ env nm = .ok r) := by
  refine ⟨?_, ?_, ?_, ?_, ?_, ?_, ?_⟩
  · intro evs
    unfold search_label_urls
    rcases h : retry3 (fun i => nmpaGetOnce (evs i)) with ⟨res, k⟩
    cases res <;> simp
  · intro evs e h
    unfold fetch_label_text
    rcases hp : retry3 (fun i => nmpaGetOnce (evs i)) with ⟨res, k⟩
    rw [hp] at h
    simp only at h
    subst h
    simp
  · intro evs1 evs2 e h
    unfold query_by_name
    rcases hp : retry3 (fun i => dbGetOnce (evs1 i)) with ⟨res, k⟩
    rw [hp] at h
    simp only at h
    subst h
    simp
  · intro evs1 evs2 h
    have hstep : ∀ i, dbGetOnce (evs1 i) = .error .transient := by
      intro i; rw [h i]; rfl
    unfold query_by_name
    rw [retry3_of_transients (hstep 1) (hstep 2), hstep 3]
  · intro evs1 evs2 j h hj
    unfold query_by_name
    rcases hp : retry3 (fun i => dbGetOnce (evs1 i)) with ⟨res, k⟩
    rw [hp] at h
    simp only at h
    subst h
    simp [hj]
  · intro env names
    constructor
    · rintro ⟨rs, h, -⟩
      exact (buildJ_ok_iff env names).mp ⟨rs, h⟩
    · intro hall
      obtain ⟨rs, h⟩ := (buildJ_ok_iff env names).mpr hall
      exact ⟨rs, h, (buildJ_ok_parts names rs h).2.1⟩
  · intro env nm hdb hscan
    exact buildOneJ_ok_of env nm hdb hscan

/-- C6 witness: `C6_theorem` on a benign environment — both hypotheses of
the no-raise clause are discharged and the single record resolves. -/
theorem C6_witness : ∃ r, buildOneJ envJok "药E".data = .ok r :=
  C6_theorem.2.2.2.2.2.2 envJok "药E".data
    (fun _ hv _ => Option.noConfusion hv) ⟨none, rfl⟩

/-! ## Claims about the text normalizer -/

/-- C10 counterexample: for the non-empty input `0x9D` — a stray UTF-8
continuation byte on which `chardet` detects no encoding, so the code's
own UTF-8 fallback applies — lenient decoding drops the only byte and
`ensure_utf8` returns the empty string, contradicting the claimed
non-empty output for every non-empty input. -/
theorem C10_counterexample :
    ([0x9D] : List UInt8) ≠ [] ∧
    ensure_utf8 detectNone [0x9D] = [] := by
  exact ⟨by decide, rfl⟩

/-- C10 (amended): `ensure_utf8` is total (never raises): it decodes with
the detected encoding leniently, falling back to lenient UTF-8 on
detection or decode failure; it returns the empty string for zero-length
input, and a non-empty string for non-empty all-ASCII input, but for
malformed non-ASCII input the result can be degraded all the way to the
empty string when every byte is dropped. -/
theorem C10_theorem :
    (∀ detect, (∀ dec, detect [] = some dec → dec [] = none ∨ dec [] = some []) →
       ensure_utf8 detect [] = []) ∧
    (∀ bs, bs ≠ [] → (∀ b ∈ bs, b ≤ 0x7F) → ensure_utf8 detectNone bs ≠ []) ∧
    (∀ detect bs dec s, detect bs = some dec → dec bs = some s →
       ensure_utf8 detect bs = s) ∧
    (∀ detect bs, detect bs = none → ensure_utf8 detect bs = utf8DecodeIgnore bs) := by
  refine ⟨?_, ?_, ?_, ?_⟩
  · intro detect h
    rcases hd : detect [] with - | dec
    · simp [ensure_utf8, hd]
      rfl
    · rcases h dec hd with h0 | h0 <;> (simp [ensure_utf8, hd, h0]; try rfl)
  · intro bs hne hascii
    rcases bs with - | ⟨b, rest⟩
    · exact absurd rfl hne
    · have hb : b ≤ 127 := hascii b (List.mem_cons_self b rest)
      show utf8DecodeIgnore (b :: rest) ≠ []
      unfold utf8DecodeIgnore
      rw [if_pos hb]
      simp
  · intro detect bs dec s hd hs
    simp [ensure_utf8, hd, hs]
  · intro detect bs hd
    simp [ensure_utf8, hd]

/-- C10 witness: `C10_theorem` on the single ASCII byte `A`. -/
theorem C10_witness : ensure_utf8 detectNone [65] ≠ [] :=
  C10_theorem.2.1 [65] (by decide) (by decide)

end CareMind
